import Mathlib

/-!
Verification development for the `soup` parser-combinator engine
(`parser_lib`): the tokenizer (`split_words.rs`), the windowing
abstraction (`vec_window.rs`) and the combinator library
(`basics.rs`, `boxes.rs`, `brackets.rs`, `collections.rs`,
`separators.rs`).

Modelling conventions:
* Rust strings (`String`/`&str`) are modelled as their character lists
  (`Str := List Char`); character classifiers (`is_alphanumeric`,
  `is_numeric`, `is_whitespace`) are modelled by Lean's ASCII
  classifiers, which agree with Rust on ASCII input.
* Machine integers (`i64`) are modelled as `Int` with the explicit
  two's-complement range check that `str::parse::<i64>` performs;
  `f64` values are modelled as exact rationals (IEEE rounding of the
  decimal literal is abstracted away — no claim here depends on it).
* Fallible Rust operations that can panic (string slicing) are modelled
  as `Option`; a `none` result marks a panic of the original code.
* The `ParseError` record carries the `unlikely` flag of the final
  iteration of the library; files of earlier iterations construct it
  with `unlikely = false`.
-/

namespace Soup

/-- Characters of a Rust string: Rust `String`/`&str` values are
modelled as their character lists. -/
abbrev Str := List Char

/-- `Word` from `split_words.rs`: a token together with its position.
The source is a struct `{ value : WordValue, line, column_from,
column_to }` with `WordValue` a two-variant enum (`Word(String)` /
`Brackets { open, inner, close }`); here the struct and its enum field
are flattened into one two-constructor inductive. -/
inductive Word where
  | word (text : Str) (line column_from column_to : Nat) : Word
  | brackets (opc : Char) (inner : List Word) (clc : Char)
      (line column_from column_to : Nat) : Word

mutual

/-- Decidable equality for `Word` (the nested `List Word` prevents
automatic derivation). -/
def Word.decEq : (a b : Word) → Decidable (a = b)
  | .word t l f u, .word t2 l2 f2 u2 =>
      decidable_of_iff (t = t2 ∧ l = l2 ∧ f = f2 ∧ u = u2) (by simp)
  | .word _ _ _ _, .brackets _ _ _ _ _ _ => isFalse nofun
  | .brackets _ _ _ _ _ _, .word _ _ _ _ => isFalse nofun
  | .brackets o i c l f t, .brackets o2 i2 c2 l2 f2 t2 =>
      match Word.decEqList i i2 with
      | isTrue h =>
          decidable_of_iff (o = o2 ∧ c = c2 ∧ l = l2 ∧ f = f2 ∧ t = t2)
            (by subst h; simp)
      | isFalse h => isFalse (fun hh => h (by cases hh; rfl))

/-- Decidable equality for lists of `Word`. -/
def Word.decEqList : (a b : List Word) → Decidable (a = b)
  | [], [] => isTrue rfl
  | [], _ :: _ => isFalse nofun
  | _ :: _, [] => isFalse nofun
  | x :: xs, y :: ys =>
      match Word.decEq x y, Word.decEqList xs ys with
      | isTrue h1, isTrue h2 => isTrue (by rw [h1, h2])
      | isFalse h1, _ => isFalse (fun hh => h1 (by cases hh; rfl))
      | _, isFalse h2 => isFalse (fun hh => h2 (by cases hh; rfl))

end

instance : DecidableEq Word := Word.decEq

/-- `Word::line`. -/
def Word.line : Word → Nat
  | .word _ l _ _ => l
  | .brackets _ _ _ l _ _ => l

/-- `Word::column_from`. -/
def Word.column_from : Word → Nat
  | .word _ _ c _ => c
  | .brackets _ _ _ _ c _ => c

/-- `Word::column_to`. -/
def Word.column_to : Word → Nat
  | .word _ _ _ c => c
  | .brackets _ _ _ _ _ c => c

/-- `Word::get_word`: the text of a plain word token. -/
def Word.getWord : Word → Option Str
  | .word t _ _ _ => some t
  | .brackets _ _ _ _ _ _ => none

/-- `Word::get_brackets`: the inner tokens of a bracket group whose
open and close characters match the requested pair. -/
def Word.getBrackets (w : Word) (opc clc : Char) : Option (List Word) :=
  match w with
  | .brackets o inner c _ _ _ => if o = opc ∧ c = clc then some inner else none
  | .word _ _ _ _ => none

/-- `BracketPair` from `split_words.rs` (fields `open`/`close`; renamed
because `open` is a Lean keyword). -/
structure BracketPair where
  openChar : Char
  closeChar : Char
deriving DecidableEq, Repr

/-- `VecWindow` from `vec_window.rs`: a `[start_index, end_index)` view
over a vector.  The Rust borrow is modelled by storing the list itself. -/
structure VecWindow (α : Type) where
  vec : List α
  /-- inclusive -/
  start_index : Nat
  /-- exclusive -/
  end_index : Nat
deriving DecidableEq

namespace VecWindow

variable {α : Type}

/-- `VecWindow::new`. -/
def new (vec : List α) (start_index end_index : Nat) : Option (VecWindow α) :=
  if start_index > end_index then none
  else if end_index > vec.length then none
  else some ⟨vec, start_index, end_index⟩

/-- `VecWindow::is_empty`. -/
def is_empty (w : VecWindow α) : Bool :=
  w.start_index ≥ w.end_index

/-- `VecWindow::size`. -/
def size (w : VecWindow α) : Nat :=
  w.end_index - w.start_index

/-- `VecWindow::first`. -/
def first (w : VecWindow α) : Option α :=
  if w.is_empty then none else w.vec.get? w.start_index

/-- `VecWindow::last`. -/
def last (w : VecWindow α) : Option α :=
  if w.is_empty then none else w.vec.get? (w.end_index - 1)

/-- `VecWindow::get`: element at an index relative to the window start. -/
def get (w : VecWindow α) (index : Nat) : Option α :=
  if index ≥ w.size then none else w.vec.get? (index + w.start_index)

/-- `VecWindow::pop_first`: the removed element together with the
window after the mutation. -/
def pop_first (w : VecWindow α) : Option α × VecWindow α :=
  if w.is_empty then (none, w)
  else (w.vec.get? w.start_index, { w with start_index := w.start_index + 1 })

/-- `VecWindow::pop_last`. -/
def pop_last (w : VecWindow α) : Option α × VecWindow α :=
  if w.is_empty then (none, w)
  else (w.vec.get? (w.end_index - 1), { w with end_index := w.end_index - 1 })

/-- `VecWindow::skip`. -/
def skip (w : VecWindow α) (n : Nat) : VecWindow α :=
  { w with start_index := min (w.start_index + n) w.end_index }

/-- `VecWindow::take`. -/
def take (w : VecWindow α) (n : Nat) : VecWindow α :=
  { w with end_index := min (w.start_index + n) w.end_index }

/-- `VecWindow::shrink_start_to`. -/
def shrink_start_to (w : VecWindow α) (new_start : Nat) : VecWindow α :=
  if new_start > w.start_index ∧ new_start ≤ w.end_index then
    { w with start_index := new_start }
  else w

/-- `VecWindow::shrink_end_to`. -/
def shrink_end_to (w : VecWindow α) (new_end : Nat) : VecWindow α :=
  if new_end < w.end_index ∧ new_end ≥ w.start_index then
    { w with end_index := new_end }
  else w

/-- `VecWindow::find`: index (relative to the window start) of the
first element matching the predicate. -/
def find (w : VecWindow α) (f : α → Bool) : Option Nat :=
  ((List.range' w.start_index (w.end_index - w.start_index)).find?
    (fun i => match w.vec.get? i with
      | some x => f x
      | none => false)).map (fun i => i - w.start_index)

/-- `VecWindow::empty`. -/
def empty (w : VecWindow α) : VecWindow α :=
  { w with start_index := 0, end_index := 0 }

/-- `VecWindow::snip`. -/
def snip (w : VecWindow α) (at_ : Nat) : Option (VecWindow α × VecWindow α) :=
  if at_ ≥ w.size then none
  else some
    (⟨w.vec, w.start_index, w.start_index + at_⟩,
     ⟨w.vec, w.start_index + at_, w.end_index⟩)

/-- `VecWindow::split_including_start`: split so that every segment
after the first starts at a matching element. -/
def split_including_start (w : VecWindow α) (onp : α → Bool) :
    List (VecWindow α) :=
  if w.is_empty then []
  else if w.size ≤ 1 then [w]
  else
    let step := fun (acc : List (VecWindow α) × Nat) (i : Nat) =>
      match w.vec.get? i with
      | some x =>
          if onp x then (acc.1 ++ [⟨w.vec, acc.2, i⟩], i) else acc
      | none => acc
    let r := (List.range' (w.start_index + 1)
      (w.end_index - (w.start_index + 1))).foldl step ([], w.start_index)
    r.1 ++ [⟨w.vec, r.2, w.end_index⟩]

/-- `VecWindow::split`: wraps `split_including_start`, dropping the
leading separator of every segment but the first. -/
def split (w : VecWindow α) (onp : α → Bool) : List (VecWindow α) :=
  (w.split_including_start onp).enum.map
    (fun ie => if ie.1 = 0 then ie.2 else ie.2.skip 1)

/-- `VecWindow::split_once`: the windows before and after the first
matching element. -/
def split_once (w : VecWindow α) (onp : α → Bool) :
    Option (VecWindow α × VecWindow α) :=
  ((List.range' w.start_index (w.end_index - w.start_index)).find?
    (fun i => match w.vec.get? i with
      | some x => onp x
      | none => false)).map
    (fun i => (⟨w.vec, w.start_index, i⟩, ⟨w.vec, i + 1, w.end_index⟩))

/-- `impl From<&Vec<T>> for VecWindow`. -/
def fromList (vec : List α) : VecWindow α :=
  ⟨vec, 0, vec.length⟩

/-- The elements currently visible through the window. -/
def toList (w : VecWindow α) : List α :=
  (w.vec.drop w.start_index).take (w.end_index - w.start_index)

end VecWindow

/-- A frame of the tokenizer's bracket stack (`TempBrackets.stack`):
the pending pair, the line and start column of the opening bracket, and
the words accumulated inside it.  The innermost (most recently pushed)
frame is the head of the list. -/
abbrev Frame := BracketPair × Nat × Nat × List Word

/-- `TempBrackets` from `split_words.rs`. -/
structure TempBrackets where
  root : List Word
  stack : List Frame
  brackets : List BracketPair

/-- `TempBrackets::new`. -/
def TempBrackets.new (brackets : List BracketPair) : TempBrackets :=
  ⟨[], [], brackets⟩

/-- The `while let Some(..) = self.stack.pop()` loop of
`TempBrackets::push` for a recognized closing bracket: pop frames,
emitting each as a bracket-group `Word` into the next level, until the
frame matching the closing pair is found or the stack empties.
`carry` holds the word emitted by the previous iteration, still to be
appended to the inner words of the next frame (the Rust loop appends
it to `stack.last_mut()` before possibly popping that frame too). -/
def closeBracketsGo (bp : BracketPair) (column_to : Nat) (root : List Word)
    (carry : List Word) : List Frame → List Word × List Frame
  | [] => (root ++ carry, [])
  | (bpf, l, cf, ws) :: rest =>
      let ws := ws ++ carry
      let word := Word.brackets bpf.openChar ws bpf.closeChar l cf column_to
      if bpf = bp then
        match rest with
        | (bp2, l2, c2, inner2) :: rest2 =>
            (root, (bp2, l2, c2, inner2 ++ [word]) :: rest2)
        | [] => (root ++ [word], [])
      else closeBracketsGo bp column_to root [word] rest

/-- Entry point of the closing-bracket loop (empty carry). -/
def closeBrackets (bp : BracketPair) (column_to : Nat) (root : List Word)
    (stack : List Frame) : List Word × List Frame :=
  closeBracketsGo bp column_to root [] stack

/-- `TempBrackets::push`: an opening bracket pushes a frame, a closing
bracket pops (best effort, silently ignored on an empty stack), any
other token is appended as a plain word to the innermost frame or the
root. -/
def TempBrackets.push (tb : TempBrackets)
    (line column_from column_to : Nat) (value : Str) : TempBrackets :=
  match tb.brackets.find? (fun bp => [bp.openChar] == value) with
  | some bp =>
      { tb with stack := (bp, line, column_from, ([] : List Word)) :: tb.stack }
  | none =>
    match tb.brackets.find? (fun bp => [bp.closeChar] == value) with
    | some bp =>
        let r := closeBrackets bp column_to tb.root tb.stack
        { tb with root := r.1, stack := r.2 }
    | none =>
        let word := Word.word value line column_from column_to
        match tb.stack with
        | (bp2, l2, c2, inner2) :: rest =>
            { tb with stack := (bp2, l2, c2, inner2 ++ [word]) :: rest }
        | [] => { tb with root := tb.root ++ [word] }

/-- The loop of `TempBrackets::finish`: pop every remaining frame,
emitting it with `column_to = 0`; `carry` is as in
`closeBracketsGo`. -/
def finishGo (root : List Word) (carry : List Word) : List Frame → List Word
  | [] => root ++ carry
  | (bpf, l, cf, ws) :: rest =>
      let ws := ws ++ carry
      let word := Word.brackets bpf.openChar ws bpf.closeChar l cf 0
      finishGo root [word] rest

/-- Entry point of the finishing loop (empty carry). -/
def finishStack (root : List Word) (stack : List Frame) : List Word :=
  finishGo root [] stack

/-- `TempBrackets::finish`. -/
def TempBrackets.finish (tb : TempBrackets) : List Word :=
  finishStack tb.root tb.stack

/-- The part of a line before the first `//` (Rust
`line.split_once("//")`, keeping the whole line when there is none). -/
def stripComment : Str → Str
  | [] => []
  | '/' :: '/' :: _ => []
  | c :: rest => c :: stripComment rest

/-- Split a character list at every newline (at least one piece). -/
def splitOnNl : Str → List Str
  | [] => [[]]
  | '\n' :: rest => [] :: splitOnNl rest
  | c :: rest =>
      match splitOnNl rest with
      | p :: ps => (c :: p) :: ps
      | [] => [[c]]

/-- One trailing carriage return removed (for pieces that were followed
by a newline, so that `\r\n` counts as one line ending). -/
def stripCr (p : Str) : Str :=
  if p.getLast? = some '\r' then p.dropLast else p

/-- Rust `str::lines`: split on `\n`, treating `\r\n` as one ending and
not yielding a final empty line for a trailing newline. -/
def rustLines (s : Str) : List Str :=
  let ps := splitOnNl s
  if ps.getLast? = some [] then (ps.dropLast).map stripCr
  else (ps.dropLast).map stripCr ++ [ps.getLast?.getD []]

/-- The body of the per-character loop of `split_words`: state is the
bracket reducer, the current token text and its start column.  Note the
source updates `column_from` only when a token starts after whitespace
(the `else` branch of the token-boundary test keeps the stale value). -/
def lineStep (bracket_chars : List Char) (line_number : Nat)
    (st : TempBrackets × Str × Nat) (ic : Nat × Char) :
    TempBrackets × Str × Nat :=
  let (tb, current_text, column_from) := st
  let (column_number, character) := ic
  if current_text.head? = some '"' then
    if character = '"' ∧ current_text.getLast? ≠ some '\\' then
      let current_text := current_text ++ ['"']
      (tb.push line_number column_from column_number current_text, [], column_from)
    else (tb, current_text ++ [character], column_from)
  else if character.isWhitespace then
    let tb :=
      if current_text ≠ [] then
        tb.push line_number column_from column_number current_text
      else tb
    (tb, [], column_from)
  else
    match current_text.getLast? with
    | none => (tb, [character], column_number)
    | some lastc =>
        let is_or_was_bracket :=
          bracket_chars.contains lastc ∨ bracket_chars.contains character
        let is_same_word_type :=
          (lastc.isAlphanum = character.isAlphanum)
            ∨ character = '_' ∨ lastc = '_'
        let is_number_period :=
          (lastc.isDigit ∧ character = '.')
            ∨ (lastc = '.' ∧ character.isDigit)
        let same_word := is_number_period ∨ (¬ is_or_was_bracket ∧ is_same_word_type)
        if same_word then (tb, current_text ++ [character], column_from)
        else (tb.push line_number column_from column_number current_text,
          [character], column_from)

/-- Process one (comment-stripped, non-blank) line of `split_words`. -/
def processLine (bracket_chars : List Char) (line_number : Nat)
    (tb : TempBrackets) (line : Str) : TempBrackets :=
  let r := line.enum.foldl (lineStep bracket_chars line_number) (tb, [], 0)
  if r.2.1 ≠ [] then
    r.1.push line_number r.2.2 line.length r.2.1
  else r.1

/-- `split_words` from `split_words.rs`: tokenize a text into a token
tree, grouping recognized bracket pairs. -/
def split_words (text : String) (brackets : List BracketPair) : List Word :=
  let bracket_chars := brackets.flatMap (fun bp => [bp.openChar, bp.closeChar])
  let res := TempBrackets.new brackets
  let res := (rustLines text.data).enum.foldl
    (fun tb lnl =>
      let (line_number, line) := lnl
      let line := stripComment line
      if line.all Char.isWhitespace then tb
      else processLine bracket_chars line_number tb line)
    res
  res.finish

/-- `ParseError`: expected description, offending token (`none` is
end-of-input) and the ambiguity-resolution flag. -/
structure ParseError where
  expected : Str
  got : Option Word
  unlikely : Bool
deriving DecidableEq

/-- `ParseResult<T>` from the combinator library: optional value,
remaining window, accumulated errors. -/
structure ParseResult (Out : Type) where
  res : Option Out
  words : VecWindow Word
  errors : List ParseError
deriving DecidableEq

/-- A parser in the sense of the `Parser<T>` trait: a function from a
window to a `ParseResult`. -/
abbrev ParserFn (Out : Type) := VecWindow Word → ParseResult Out

/-- `parse_helper` from `basics.rs`: the common shape of the leaf
parsers (inspect `first()`, on match `skip(1)`). -/
def parse_helper {T : Type} (words : VecWindow Word) (message : Str)
    (parse_one : Word → Option T) : ParseResult T :=
  match words.first with
  | none => ⟨none, words, [⟨message, none, false⟩]⟩
  | some word =>
      match parse_one word with
      | some res => ⟨some res, words.skip 1, []⟩
      | none => ⟨none, words, [⟨message, some word, false⟩]⟩

/-- All-decimal-digit character list to its numeric value. -/
def digitsToNat (s : Str) : Option Nat :=
  if s ≠ [] ∧ s.all Char.isDigit then
    some (s.foldl (fun acc c => acc * 10 + (c.toNat - 48)) 0)
  else none

/-- Rust `str::parse::<i64>`: optional sign, decimal digits, with the
two's-complement 64-bit range check. -/
def parseI64 (s : Str) : Option Int :=
  match s with
  | '+' :: rest =>
      (digitsToNat rest).bind
        (fun n => if n ≤ 9223372036854775807 then some (n : Int) else none)
  | '-' :: rest =>
      (digitsToNat rest).bind
        (fun n => if n ≤ 9223372036854775808 then some (-(n : Int)) else none)
  | _ =>
      (digitsToNat s).bind
        (fun n => if n ≤ 9223372036854775807 then some (n : Int) else none)

/-- Rust `str::parse::<f64>`, restricted to the plain decimal fragment
(optional sign, digits, optional fraction); the IEEE result is
abstracted to the exact rational value.  No theorem below depends on
the value this returns. -/
def parseF64 (s : Str) : Option Rat :=
  let signed : Int × Str :=
    match s with
    | '-' :: rest => (-1, rest)
    | '+' :: rest => (1, rest)
    | _ => (1, s)
  match signed.2.splitOn '.' with
  | [ip] => (digitsToNat ip).map (fun n => (signed.1 * n : Int))
  | [ip, fp] =>
      if (ip ≠ [] ∨ fp ≠ []) ∧ ip.all Char.isDigit ∧ fp.all Char.isDigit then
        let ipn : Nat := ip.foldl (fun acc c => acc * 10 + (c.toNat - 48)) 0
        let fpn : Nat := fp.foldl (fun acc c => acc * 10 + (c.toNat - 48)) 0
        some ((signed.1 : Rat) * ((ipn : Rat) + (fpn : Rat) / (10 : Rat) ^ fp.length))
      else none
  | _ => none

/-- `impl Parser<i64> for i64` from `basics.rs`. -/
def i64Parse : ParserFn Int :=
  fun words =>
    parse_helper words ("<<integer>>").data
      (fun word => (word.getWord).bind parseI64)

/-- `impl Parser<bool> for bool` from `basics.rs`. -/
def boolParse : ParserFn Bool :=
  fun words =>
    parse_helper words ("<<boolean>>").data
      (fun word =>
        match word.getWord with
        | some t =>
            if t = ("true").data then some true
            else if t = ("false").data then some false
            else none
        | none => none)

/-- `impl Parser<()> for ()` from `basics.rs`: succeeds, consuming
nothing. -/
def unitParse : ParserFn Unit :=
  fun words => ⟨some (), words, []⟩

/-- The failure result of `f64::parse` (`expected: "<<f64>>", got:
None` on every failing path, window restored). -/
def f64Fail (old_words : VecWindow Word) : ParseResult Rat :=
  ⟨none, old_words, [⟨("<<f64>>").data, none, false⟩]⟩

/-- `impl Parser<f64> for f64` from `basics.rs`: pops three tokens
(integer part, a `.` token, decimal part) and re-joins them. -/
def f64Parse : ParserFn Rat :=
  fun words =>
    let old_words := words
    let p1 := words.pop_first
    let p2 := p1.2.pop_first
    let p3 := p2.2.pop_first
    match p1.1, p2.1, p3.1 with
    | some integer, some dot, some decimal =>
        if ¬ (dot.getWord = some (['.'])) then f64Fail old_words
        else
          match integer.getWord with
          | none => f64Fail old_words
          | some ip =>
              match decimal.getWord with
              | none => f64Fail old_words
              | some dp =>
                  match parseF64 (ip ++ ['.'] ++ dp) with
                  | some f => ⟨some f, p3.2, []⟩
                  | none => f64Fail old_words
    | _, _, _ => f64Fail old_words

/-- Rust string slicing `&s[a..b]` (byte indices modelled as character
indices): `none` models the panic on an invalid range. -/
def rustSlice (s : Str) (a b : Nat) : Option Str :=
  if a ≤ b ∧ b ≤ s.length then some ((s.drop a).take (b - a)) else none

/-- The closure of `String::parse` (`basics.rs`): strip the quotes via
`word[1..word.len() - 1]`.  The outer `none` models the panic of the
slice (reached when the text is a lone `"`); `some none` is a
non-matching token. -/
def stringParseOne (word : Word) : Option (Option Str) :=
  match word.getWord with
  | none => some none
  | some s =>
      if s.head? = some '"' ∧ s.getLast? = some '"' then
        (rustSlice s 1 (s.length - 1)).map some
      else some none

/-- `impl Parser<String> for String` from `basics.rs`, with the panic
of the quote-stripping slice made explicit (`none` = panic). -/
def stringParse (words : VecWindow Word) : Option (ParseResult Str) :=
  match words.first with
  | none => some ⟨none, words, [⟨("<<string>>").data, none, false⟩]⟩
  | some word =>
      match stringParseOne word with
      | none => none
      | some none => some ⟨none, words, [⟨("<<string>>").data, some word, false⟩]⟩
      | some (some res) => some ⟨some res, words.skip 1, []⟩

/-- `impl Parser<Option<Out>> for Option<T>` from `boxes.rs`: wrap a
success, turn a failure into `Some(None)` with the errors discarded. -/
def optionParse {T : Type} (pT : ParserFn T) : ParserFn (Option T) :=
  fun words =>
    let r := pT words
    match r.res with
    | some res => ⟨some (some res), r.words, r.errors⟩
    | none => ⟨some none, r.words, []⟩

/-- `impl Parser<(Out1, Out2)> for (T1, T2)` from `collections.rs`:
both parsers run (the second on the first's returned window) before the
results are combined. -/
def tuple2Parse {A B : Type} (p1 : ParserFn A) (p2 : ParserFn B) :
    ParserFn (A × B) :=
  fun words =>
    let r1 := p1 words
    let r2 := p2 r1.words
    match r1.res with
    | some res1 =>
        match r2.res with
        | some res2 => ⟨some (res1, res2), r2.words, r1.errors ++ r2.errors⟩
        | none => ⟨none, r2.words, r2.errors⟩
    | none => ⟨none, r2.words, r1.errors⟩

/-- The `while !words.is_empty()` loop of `Vec<T>::parse`
(`collections.rs`), with explicit fuel: `none` means the fuel ran out,
modelling non-termination of the source loop. -/
def vecLoop {T : Type} (pT : ParserFn T) :
    Nat → VecWindow Word → List T → List ParseError →
      Option (ParseResult (List T))
  | 0, _, _, _ => none
  | fuel + 1, words, res, errors =>
      if words.is_empty then some ⟨some res, words, errors⟩
      else
        let r := pT words
        match r.res with
        | some item => vecLoop pT fuel r.words (res ++ [item]) (errors ++ r.errors)
        | none => some ⟨some res, r.words, errors⟩

/-- `true` iff the loop terminated and produced a successful result. -/
def loopOk {T : Type} : Option (ParseResult (List T)) → Bool
  | some out => out.res.isSome
  | none => false

/-- The loop of `NonEmptyVec<T>::parse` (`collections.rs`): as
`vecLoop`, but a failed first item is a failure of the whole parse.
The successful value is the wrapped vector. -/
def neVecLoop {T : Type} (pT : ParserFn T) :
    Nat → VecWindow Word → List T → List ParseError →
      Option (ParseResult (List T))
  | 0, _, _, _ => none
  | fuel + 1, words, res, errors =>
      if words.is_empty then some ⟨some res, words, errors⟩
      else
        let r := pT words
        match r.res with
        | some item =>
            neVecLoop pT fuel r.words (res ++ [item]) (errors ++ r.errors)
        | none =>
            if ¬ res.isEmpty then some ⟨some res, r.words, errors⟩
            else some ⟨none, r.words, r.errors⟩

/-- `NonEmptyVec<T>::parse` with the stated fuel. -/
def neVecParse {T : Type} (pT : ParserFn T) (fuel : Nat) :
    VecWindow Word → Option (ParseResult (List T)) :=
  fun words => neVecLoop pT fuel words [] []

/-- `brackets_helper` from `brackets.rs`: require a bracket-group first
token of the given pair, run the inner parser on the inner tokens, and
(only when the inner parser reported no errors) reject residual inner
tokens as an expected-closing-bracket error. -/
def brackets_helper {T B : Type} (pT : ParserFn T) (start_c end_c : Char)
    (create : T → B) : ParserFn B :=
  fun words =>
    match words.first with
    | none => ⟨none, words, [⟨[start_c], none, false⟩]⟩
    | some first =>
        match first.getBrackets start_c end_c with
        | none => ⟨none, words, [⟨[start_c], some first, false⟩]⟩
        | some inner =>
            let r := pT (VecWindow.fromList inner)
            if r.errors = [] then
              match r.words.first with
              | some word => ⟨none, words, [⟨[end_c], some word, false⟩]⟩
              | none => ⟨r.res.map create, (words.pop_first).2, r.errors⟩
            else ⟨r.res.map create, (words.pop_first).2, r.errors⟩

/-- `SquareBrackets<T>` (`brackets.rs`). -/
structure SquareBrackets (T : Type) where
  val : T
deriving DecidableEq

/-- `SquareBrackets<T>::parse`. -/
def squareBracketsParse {T : Type} (pT : ParserFn T) :
    ParserFn (SquareBrackets T) :=
  brackets_helper pT '[' ']' SquareBrackets.mk

/-- The separator predicate of `SeparatedBy`/`SeparatedOnce`
(`separators.rs`): `word.get_word().is_some_and(|t| t == SEPARATOR)`. -/
def sepPred (sep : Str) : Word → Bool :=
  fun word => word.getWord == some sep

/-- `SeparatedBy<BY, T>::parse` from `separators.rs` (the value is the
wrapped vector): split on the separator text, parse every segment,
flagging residual tokens of non-final error-free segments, and resume
from the final segment's leftover. -/
def separatedByParse {T : Type} (sep : Str) (pT : ParserFn T) :
    ParserFn (List T) :=
  fun words =>
    let parts := words.split (sepPred sep)
    let len := parts.length
    let step := fun (st : List T × List ParseError × VecWindow Word)
        (ip : Nat × VecWindow Word) =>
      let r := pT ip.2
      let no_errors := r.errors = []
      let errors := st.2.1 ++ r.errors
      let res := match r.res with
        | some item => st.1 ++ [item]
        | none => st.1
      let wordsAcc := if ip.1 = len - 1 then r.words else st.2.2
      let errors :=
        if ip.1 ≠ len - 1 ∧ ¬ r.words.is_empty ∧ no_errors then
          match r.words.first with
          | some word => errors ++ [⟨sep, some word, false⟩]
          | none => errors
        else errors
      (res, errors, wordsAcc)
    let r := parts.enum.foldl step ([], [], words)
    ⟨some r.1, r.2.2, r.2.1⟩

/-- `SeparatedOnce<BY, A, B>::parse` from `separators.rs` (the value is
the pair): split at the first separator, require `A` to consume its
half entirely, then run `B` on the rest. -/
def separatedOnceParse {A B : Type} (sep : Str) (pa : ParserFn A)
    (pb : ParserFn B) : ParserFn (A × B) :=
  fun words =>
    match words.split_once (sepPred sep) with
    | none => ⟨none, words, [⟨sep, none, false⟩]⟩
    | some (first, second) =>
        let r1 := pa first
        match r1.res with
        | none => ⟨none, r1.words, r1.errors⟩
        | some res1 =>
            match r1.words.first with
            | some word =>
                ⟨none, r1.words, r1.errors ++ [⟨sep, some word, false⟩]⟩
            | none =>
                let r2 := pb second
                let errors := r1.errors ++ r2.errors
                match r2.res with
                | none => ⟨none, r2.words, errors⟩
                | some res2 => ⟨some (res1, res2), r2.words, errors⟩

/-- The source position an error points at: the offending token's
`(line, column_from)`, or `(0, 0)` for end-of-input (`got = None`). -/
def errPos (e : ParseError) : Nat × Nat :=
  match e.got with
  | some w => (w.line, w.column_from)
  | none => (0, 0)

/-- The later of two `(line, column)` positions (lexicographic). -/
def posMax (p q : Nat × Nat) : Nat × Nat :=
  if p.1 < q.1 ∨ (p.1 = q.1 ∧ p.2 < q.2) then q else p

/-- The furthest position reached among a branch's errors. -/
def branchFurthest (b : List ParseError) : Nat × Nat :=
  b.foldl (fun acc e => posMax acc (errPos e)) (0, 0)

/-- The maximum of `branchFurthest` over all branches. -/
def maxFurthest (bs : List (List ParseError)) : Nat × Nat :=
  bs.foldl (fun acc b => posMax acc (branchFurthest b)) (0, 0)

/-- Modelled from the spec: `flatten_branched_errors` (declared in the
`parser_lib` crate root, which is not among the source files; only its
caller, the derive macro in `parser_lib_macros`, is).  Per §4.4 of the
spec: for each branch compute the furthest `(line, column)` among its
errors (`(0,0)` for end-of-input); the branch(es) achieving the maximum
keep their errors as-is, every error of every other branch is flagged
`unlikely = true`; all errors are kept, in branch order. -/
def flatten_branched_errors (bs : List (List ParseError)) : List ParseError :=
  let m := maxFurthest bs
  bs.flatMap
    (fun b =>
      if branchFurthest b = m then b
      else b.map (fun e => { e with unlikely := true }))

/-- The window operations of claim C1, acting on a generic window. -/
inductive WinOp where
  | skip (n : Nat)
  | take (n : Nat)
  | pop_first
  | pop_last
  | shrink_start_to (i : Nat)
  | shrink_end_to (i : Nat)
deriving DecidableEq

/-- Apply one window operation. -/
def applyOp {α : Type} (w : VecWindow α) : WinOp → VecWindow α
  | .skip n => w.skip n
  | .take n => w.take n
  | .pop_first => (w.pop_first).2
  | .pop_last => (w.pop_last).2
  | .shrink_start_to i => w.shrink_start_to i
  | .shrink_end_to i => w.shrink_end_to i

/-- Apply a sequence of window operations left to right. -/
def applyOps {α : Type} (w : VecWindow α) (ops : List WinOp) : VecWindow α :=
  ops.foldl applyOp w

/-- The standard bracket table of the library's tests (`{}`, `()`,
`[]`). -/
def stdBrackets : List BracketPair :=
  [⟨'\x7b', '\x7d'⟩, ⟨'(', ')'⟩, ⟨'[', ']'⟩]

/-- Tokenize a text and view the whole token vector through a window,
as the library's tests do via `(&words).into()`. -/
def windowOfText (s : String) (brackets : List BracketPair) : VecWindow Word :=
  VecWindow.fromList (split_words s brackets)

/-- Every single window operation keeps `start_index ≤ end_index` and
moves both boundaries inward only. -/
theorem applyOp_mono {α : Type} (w : VecWindow α) (op : WinOp)
    (h : w.start_index ≤ w.end_index) :
    w.start_index ≤ (applyOp w op).start_index ∧
    (applyOp w op).end_index ≤ w.end_index ∧
    (applyOp w op).start_index ≤ (applyOp w op).end_index := by
  cases op <;>
    simp only [applyOp, VecWindow.skip, VecWindow.take, VecWindow.pop_first,
      VecWindow.pop_last, VecWindow.shrink_start_to, VecWindow.shrink_end_to,
      VecWindow.is_empty] <;>
    (try split_ifs) <;> (try simp_all) <;> omega

/-- Iterated window operations keep `start_index ≤ end_index` and move
both boundaries inward only. -/
theorem applyOps_mono {α : Type} (ops : List WinOp) (w : VecWindow α)
    (h : w.start_index ≤ w.end_index) :
    w.start_index ≤ (applyOps w ops).start_index ∧
    (applyOps w ops).end_index ≤ w.end_index ∧
    (applyOps w ops).start_index ≤ (applyOps w ops).end_index := by
  induction ops generalizing w with
  | nil => simpa [applyOps] using h
  | cons op rest ih =>
      have h1 := applyOp_mono w op h
      have h2 := ih (applyOp w op) h1.2.2
      simp only [applyOps, List.foldl_cons] at h2 ⊢
      exact ⟨le_trans h1.1 h2.1, le_trans h2.2.1 h1.2.1, h2.2.2⟩

/-- C1: for every window satisfying the `start ≤ end` invariant and
every finite sequence of `skip`/`take`/`pop_first`/`pop_last`/
`shrink_start_to`/`shrink_end_to` operations, the resulting window's
`[start, end)` range is a sub-range of the original's, `size()` never
exceeds the original, and `size()` does not increase at any single
step of the sequence. -/
theorem C1_window_monotonicity {α : Type} (w : VecWindow α)
    (ops : List WinOp) (n : Nat) (h : w.start_index ≤ w.end_index) :
    w.start_index ≤ (applyOps w ops).start_index
    ∧ (applyOps w ops).end_index ≤ w.end_index
    ∧ (applyOps w ops).size ≤ w.size
    ∧ (applyOps w (ops.take (n + 1))).size ≤ (applyOps w (ops.take n)).size := by
  have hm := applyOps_mono ops w h
  refine ⟨hm.1, hm.2.1, ?_, ?_⟩
  · unfold VecWindow.size
    omega
  · have hmn := applyOps_mono (ops.take n) w h
    simp only [applyOps] at hmn ⊢
    rw [List.take_succ, List.foldl_append]
    cases hg : ops[n]? with
    | none => simp [hg]
    | some op =>
        have hstep := applyOp_mono (List.foldl applyOp w (ops.take n)) op hmn.2.2
        simp only [hg, Option.toList, List.foldl_cons, List.foldl_nil]
        unfold VecWindow.size
        omega

/-- Witness for C1 at a concrete window and sequence. -/
theorem C1_window_monotonicity_witness :
    (⟨[0, 1, 2], 0, 3⟩ : VecWindow Nat).start_index ≤
        (⟨[0, 1, 2], 0, 3⟩ : VecWindow Nat).end_index
    ∧ ((⟨[0, 1, 2], 0, 3⟩ : VecWindow Nat).start_index ≤
        (applyOps (⟨[0, 1, 2], 0, 3⟩ : VecWindow Nat)
          [WinOp.skip 1, WinOp.pop_last]).start_index
      ∧ (applyOps (⟨[0, 1, 2], 0, 3⟩ : VecWindow Nat)
          [WinOp.skip 1, WinOp.pop_last]).end_index ≤
          (⟨[0, 1, 2], 0, 3⟩ : VecWindow Nat).end_index
      ∧ (applyOps (⟨[0, 1, 2], 0, 3⟩ : VecWindow Nat)
          [WinOp.skip 1, WinOp.pop_last]).size ≤
          (⟨[0, 1, 2], 0, 3⟩ : VecWindow Nat).size
      ∧ (applyOps (⟨[0, 1, 2], 0, 3⟩ : VecWindow Nat)
          ([WinOp.skip 1, WinOp.pop_last].take (1 + 1))).size ≤
          (applyOps (⟨[0, 1, 2], 0, 3⟩ : VecWindow Nat)
            ([WinOp.skip 1, WinOp.pop_last].take 1)).size) :=
  ⟨by decide,
   C1_window_monotonicity (⟨[0, 1, 2], 0, 3⟩ : VecWindow Nat)
     [WinOp.skip 1, WinOp.pop_last] 1 (by decide)⟩

/-- The token window of the counterexample text `[1,b 2]`. -/
def c2win : VecWindow Word :=
  windowOfText ("[1,b 2]") stdBrackets

/-- The inner tokens of the bracket group at the head of `c2win`. -/
def c2innerToks : List Word :=
  ((c2win.first).bind (fun w => w.getBrackets '[' ']')).getD []

/-- The inner parser of the counterexample:
`SeparatedBy<Comma, i64>`. -/
def c2innerParser : ParserFn (List Int) :=
  separatedByParse ((",").data) i64Parse

/-- C2 (amended): when the first token is a bracket group of the
matching pair and the inner parser's parse of the inner window reports
no errors, succeeds, and leaves a residual inner token, the bracket
combinator fails with a single error whose expected text is the
closing bracket. -/
theorem C2_brackets_reject_residual {T B : Type} (pT : ParserFn T)
    (create : T → B) (start_c end_c : Char) (w : VecWindow Word)
    (first : Word) (inner : List Word) (residual : Word)
    (h1 : w.first = some first)
    (h2 : first.getBrackets start_c end_c = some inner)
    (h3 : (pT (VecWindow.fromList inner)).errors = [])
    (h4 : (pT (VecWindow.fromList inner)).res.isSome = true)
    (h5 : (pT (VecWindow.fromList inner)).words.first = some residual) :
    brackets_helper pT start_c end_c create w =
      ⟨none, w, [⟨[end_c], some residual, false⟩]⟩ := by
  unfold brackets_helper
  simp only [h1, h2, h3, h5]
  simp

/-- Witness for C2 at `SquareBrackets<i64>` on the tokens of `[1 2]`:
exactly one error and a non-empty remaining window. -/
theorem C2_brackets_reject_residual_witness :
    ((windowOfText ("[1 2]") stdBrackets).first =
        some (Word.brackets '[' [Word.word (("1").data) 0 0 2,
          Word.word (("2").data) 0 3 4] ']' 0 0 5)
      ∧ (i64Parse (VecWindow.fromList [Word.word (("1").data) 0 0 2,
          Word.word (("2").data) 0 3 4])).errors = []
      ∧ (i64Parse (VecWindow.fromList [Word.word (("1").data) 0 0 2,
          Word.word (("2").data) 0 3 4])).res.isSome = true
      ∧ (i64Parse (VecWindow.fromList [Word.word (("1").data) 0 0 2,
          Word.word (("2").data) 0 3 4])).words.first =
          some (Word.word (("2").data) 0 3 4)
      ∧ (windowOfText ("[1 2]") stdBrackets).is_empty = false)
    ∧ squareBracketsParse i64Parse (windowOfText ("[1 2]") stdBrackets) =
        ⟨none, windowOfText ("[1 2]") stdBrackets,
          [⟨[']'], some (Word.word (("2").data) 0 3 4), false⟩]⟩ :=
  ⟨by decide,
   C2_brackets_reject_residual i64Parse SquareBrackets.mk '[' ']'
     (windowOfText ("[1 2]") stdBrackets)
     (Word.brackets '[' [Word.word (("1").data) 0 0 2,
       Word.word (("2").data) 0 3 4] ']' 0 0 5)
     [Word.word (("1").data) 0 0 2, Word.word (("2").data) 0 3 4]
     (Word.word (("2").data) 0 3 4)
     (by decide) (by decide) (by decide) (by decide) (by decide)⟩

/-- C2 counterexample: with the library's own inner parser
`SeparatedBy<Comma, i64>` on the tokens of `[1,b 2]`, the inner parse
succeeds and leaves residual inner tokens (with soft errors), yet the
bracket combinator succeeds — refuting the claim's universal
"fails for every inner parser whose parse leaves residual tokens". -/
theorem C2_brackets_residual_counterexample :
    (c2win.first).isSome = true
    ∧ ((c2win.first).bind (fun w => w.getBrackets '[' ']')).isSome = true
    ∧ (c2innerParser (VecWindow.fromList c2innerToks)).res.isSome = true
    ∧ (c2innerParser (VecWindow.fromList c2innerToks)).words.is_empty = false
    ∧ (brackets_helper c2innerParser '[' ']' id c2win).res.isSome = true := by
  decide

/-- C3: when every variant of a sum-type dispatch fails,
`flatten_branched_errors` keeps every error; an error of a branch whose
furthest `(line, column)` position attains the maximum is kept with
`unlikely = false`, and an error of any other branch is kept with
`unlikely` set to `true` (hypotheses: all incoming errors are created
with `unlikely = false`, as the combinators do). -/
theorem C3_flatten_marks_shallower_branches_unlikely
    (bs : List (List ParseError)) (b : List ParseError) (e : ParseError)
    (hall : ∀ b2 ∈ bs, ∀ e2 ∈ b2, e2.unlikely = false)
    (hb : b ∈ bs) (he : e ∈ b) :
    (branchFurthest b = maxFurthest bs →
      e ∈ flatten_branched_errors bs ∧ e.unlikely = false)
    ∧ (branchFurthest b ≠ maxFurthest bs →
      { e with unlikely := true } ∈ flatten_branched_errors bs)
    ∧ (flatten_branched_errors bs).length = (bs.map List.length).sum := by
  refine ⟨?_, ?_, ?_⟩
  · intro hmax
    refine ⟨?_, hall b hb e he⟩
    unfold flatten_branched_errors
    simp only [List.mem_flatMap]
    exact ⟨b, hb, by simp [hmax, he]⟩
  · intro hmax
    unfold flatten_branched_errors
    simp only [List.mem_flatMap]
    refine ⟨b, hb, ?_⟩
    simp only [hmax, if_false]
    exact List.mem_map_of_mem _ he
  · unfold flatten_branched_errors
    simp only [List.length_flatMap]
    congr 1
    apply List.map_congr_left
    intro b2 _
    by_cases hh : branchFurthest b2 = maxFurthest bs <;> simp [hh]

/-- Witness for C3: the spec's two-variant example — variant A's error
one column further than variant B's; B's error is flagged unlikely, A's
is kept unflagged. -/
theorem C3_flatten_witness :
    ((∀ b2 ∈ [[ParseError.mk (("a").data) (some (Word.word (("x").data) 0 2 3)) false],
        [ParseError.mk (("b").data) (some (Word.word (("y").data) 0 1 2)) false]],
        ∀ e2 ∈ b2, e2.unlikely = false)
      ∧ branchFurthest [ParseError.mk (("b").data) (some (Word.word (("y").data) 0 1 2)) false] ≠
          maxFurthest [[ParseError.mk (("a").data) (some (Word.word (("x").data) 0 2 3)) false],
            [ParseError.mk (("b").data) (some (Word.word (("y").data) 0 1 2)) false]])
    ∧ { ParseError.mk (("b").data) (some (Word.word (("y").data) 0 1 2)) false
          with unlikely := true } ∈
        flatten_branched_errors
          [[ParseError.mk (("a").data) (some (Word.word (("x").data) 0 2 3)) false],
            [ParseError.mk (("b").data) (some (Word.word (("y").data) 0 1 2)) false]] :=
  ⟨⟨by decide, by decide⟩,
   (C3_flatten_marks_shallower_branches_unlikely
      [[ParseError.mk (("a").data) (some (Word.word (("x").data) 0 2 3)) false],
        [ParseError.mk (("b").data) (some (Word.word (("y").data) 0 1 2)) false]]
      [ParseError.mk (("b").data) (some (Word.word (("y").data) 0 1 2)) false]
      (ParseError.mk (("b").data) (some (Word.word (("y").data) 0 1 2)) false)
      (by decide) (by decide) (by decide)).2.1 (by decide)⟩

/-- C4, evaluated at the failing input: on the empty window (the
tokens of the empty text), `NonEmptyVec<i64>::parse` skips its loop
entirely and returns a *successful empty* collection with no errors —
the claim (and the library's own unit test
`test_parse_non_empty_vec::invalid`, which expects `None` and one
error) says it must fail. -/
theorem C4_nonemptyvec_succeeds_on_empty_window :
    neVecParse i64Parse 1 (VecWindow.fromList []) =
      some ⟨some [], VecWindow.fromList [], []⟩
    ∧ (split_words ("") []) = [] := by
  decide

/-- C5 counterexample: `Option<(i64, i64)>` on the tokens of `1 a` —
the inner tuple parser consumes the `1` before failing, so the
combinator returns `Some(None)` with the *advanced* window (size 1) of
the failed inner parse, not the unchanged input window (size 2),
refuting "the returned window is w unchanged". -/
theorem C5_option_counterexample :
    (optionParse (tuple2Parse i64Parse i64Parse) (windowOfText ("1 a") [])).res =
        some none
    ∧ (optionParse (tuple2Parse i64Parse i64Parse) (windowOfText ("1 a") [])).errors = []
    ∧ (optionParse (tuple2Parse i64Parse i64Parse) (windowOfText ("1 a") [])).words.size = 1
    ∧ (windowOfText ("1 a") []).size = 2
    ∧ optionParse (tuple2Parse i64Parse i64Parse) (windowOfText ("1 a") []) ≠
        ⟨some none, windowOfText ("1 a") [], []⟩ := by
  decide

/-- C5 (amended): `Option<T>::parse` always succeeds; when `T`'s parse
fails, the result is `Some(None)` with an empty error list (`T`'s
errors are discarded) and with the window returned by `T`'s failing
parse — which is the input window unchanged for the leaf parsers, but
may have advanced for composite inner parsers. -/
theorem C5_option_always_succeeds {T : Type} (pT : ParserFn T)
    (w : VecWindow Word) :
    ((optionParse pT w).res.isSome = true)
    ∧ ((pT w).res = none →
        optionParse pT w = ⟨some none, (pT w).words, []⟩) := by
  unfold optionParse
  cases h : (pT w).res <;> simp [h]

/-- Witness for C5 at `Option<i64>` on the tokens of `a` (where the
inner failure leaves the window unchanged). -/
theorem C5_option_always_succeeds_witness :
    ((i64Parse (windowOfText ("a") [])).res = none)
    ∧ ((optionParse i64Parse (windowOfText ("a") [])).res.isSome = true)
    ∧ optionParse i64Parse (windowOfText ("a") []) =
        ⟨some none, (i64Parse (windowOfText ("a") [])).words, []⟩ :=
  ⟨by decide,
   (C5_option_always_succeeds i64Parse (windowOfText ("a") [])).1,
   (C5_option_always_succeeds i64Parse (windowOfText ("a") [])).2 (by decide)⟩

/-- C6 counterexample: `SeparatedOnce<Comma, i64, i64>` on the tokens
of `1,2,3` — the separator occurs, `B`'s parse of the second half
(`2,3`) succeeds but leaves two tokens unconsumed, and the combinator
nevertheless succeeds, refuting "succeeds only if B's parse fully
consumes the tokens after the separator". -/
theorem C6_separated_once_counterexample :
    ((windowOfText ("1,2,3") []).split_once (sepPred ((",").data))).isSome = true
    ∧ (i64Parse ⟨split_words ("1,2,3") [], 2, 5⟩).res.isSome = true
    ∧ (i64Parse ⟨split_words ("1,2,3") [], 2, 5⟩).words.size = 2
    ∧ ((windowOfText ("1,2,3") []).split_once (sepPred ((",").data))) =
        some (⟨split_words ("1,2,3") [], 0, 1⟩, ⟨split_words ("1,2,3") [], 2, 5⟩)
    ∧ (separatedOnceParse ((",").data) i64Parse i64Parse
        (windowOfText ("1,2,3") [])).res.isSome = true := by
  decide

/-- C6 (amended): `SeparatedOnce<Sep, A, B>::parse` — when the
separator never occurs in the window it fails with a single error whose
`got` is `None`; and success requires `A`'s parse to succeed and to
fully consume the tokens before the first separator, and `B`'s parse to
succeed on the tokens after it (`B`'s residual tokens become the
remaining window and are not required to be empty). -/
theorem C6_separated_once_shape {A B : Type} (sep : Str) (pa : ParserFn A)
    (pb : ParserFn B) (w f s : VecWindow Word) :
    ((w.split_once (sepPred sep) = none →
        separatedOnceParse sep pa pb w = ⟨none, w, [⟨sep, none, false⟩]⟩))
    ∧ (w.split_once (sepPred sep) = some (f, s) →
        (separatedOnceParse sep pa pb w).res.isSome = true →
        (pa f).res.isSome = true
        ∧ (pa f).words.first = none
        ∧ (pb s).res.isSome = true
        ∧ (separatedOnceParse sep pa pb w).words = (pb s).words) := by
  constructor
  · intro hnone
    unfold separatedOnceParse
    rw [hnone]
  · intro hsplit hsucc
    unfold separatedOnceParse at hsucc ⊢
    simp only [hsplit] at hsucc ⊢
    cases h1 : (pa f).res with
    | none => simp only [h1] at hsucc; simp at hsucc
    | some res1 =>
        simp only [h1] at hsucc ⊢
        cases h2 : (pa f).words.first with
        | some word => simp only [h2] at hsucc; simp at hsucc
        | none =>
            simp only [h2] at hsucc ⊢
            cases h3 : (pb s).res with
            | none => simp only [h3] at hsucc; simp at hsucc
            | some res2 => simp only [h3]; simp

/-- Witness for C6: the missing-separator branch on the tokens of
`1 2` and the success branch on the tokens of `1,2,3`. -/
theorem C6_separated_once_shape_witness :
    ((windowOfText ("1 2") []).split_once (sepPred ((",").data)) = none
      ∧ separatedOnceParse ((",").data) i64Parse i64Parse (windowOfText ("1 2") []) =
          ⟨none, windowOfText ("1 2") [], [⟨((",").data), none, false⟩]⟩)
    ∧ ((i64Parse ⟨split_words ("1,2,3") [], 0, 1⟩).res.isSome = true
      ∧ (i64Parse ⟨split_words ("1,2,3") [], 0, 1⟩).words.first = none
      ∧ (i64Parse ⟨split_words ("1,2,3") [], 2, 5⟩).res.isSome = true
      ∧ (separatedOnceParse ((",").data) i64Parse i64Parse
          (windowOfText ("1,2,3") [])).words =
          (i64Parse ⟨split_words ("1,2,3") [], 2, 5⟩).words) :=
  ⟨⟨by decide,
    (C6_separated_once_shape ((",").data) i64Parse i64Parse
      (windowOfText ("1 2") []) (VecWindow.fromList []) (VecWindow.fromList [])).1
      (by decide)⟩,
   (C6_separated_once_shape ((",").data) i64Parse i64Parse
      (windowOfText ("1,2,3") []) ⟨split_words ("1,2,3") [], 0, 1⟩
      ⟨split_words ("1,2,3") [], 2, 5⟩).2 (by decide) (by decide)⟩

/-- C7, evaluated at the failing input: the tokenizer's digit-period
rule glues `123.456` into a *single* token, while `f64::parse` pops
*three* tokens (integer part, `.`, decimal part) — so the claimed round
trip fails with one error and the window untouched.  This contradicts
the claim and the library's own unit test `test_parse_f64::valid`. -/
theorem C7_float_round_trip_fails :
    split_words ("123.456") [] = [Word.word (("123.456").data) 0 0 7]
    ∧ (f64Parse (windowOfText ("123.456") [])).res = none
    ∧ (f64Parse (windowOfText ("123.456") [])).words = windowOfText ("123.456") []
    ∧ (f64Parse (windowOfText ("123.456") [])).errors.length = 1 := by
  decide

/-- C8 counterexample: tokenizing `]` with the recognized pair
`('[', ']')` — there is no open frame, so the closing bracket is
silently dropped and the output is empty, refuting "a recognized
closing bracket with no matching open frame still appears in the
output token tree as a plain word token". -/
theorem C8_dropped_closing_bracket_counterexample :
    split_words ("]") [⟨'[', ']'⟩] = []
    ∧ split_words ("]") [] = [Word.word ([']']) 0 0 1] := by
  decide

/-- C8 (amended): the tokenizer's bracket reducer never rejects —
a token that is neither a recognized opening nor a recognized closing
bracket is appended to the innermost open frame (or the root) as a
plain word token; but a recognized closing bracket arriving with no
open frame on the stack is silently dropped. -/
theorem C8_push_tolerates_mismatch (tb : TempBrackets)
    (line column_from column_to : Nat) (value : Str)
    (hopen : tb.brackets.find? (fun bp => [bp.openChar] == value) = none) :
    (tb.brackets.find? (fun bp => [bp.closeChar] == value) = none →
      tb.push line column_from column_to value =
        (match tb.stack with
          | (bp2, l2, c2, inner2) :: rest =>
              { tb with stack := (bp2, l2, c2,
                  inner2 ++ [Word.word value line column_from column_to]) :: rest }
          | [] =>
              { tb with root :=
                  tb.root ++ [Word.word value line column_from column_to] }))
    ∧ ((tb.brackets.find? (fun bp => [bp.closeChar] == value)).isSome = true →
      tb.stack = [] →
      tb.push line column_from column_to value = tb) := by
  constructor
  · intro hclose
    unfold TempBrackets.push
    rw [hopen, hclose]
  · intro hclose hstack
    unfold TempBrackets.push
    rw [hopen]
    cases hc : tb.brackets.find? (fun bp => [bp.closeChar] == value) with
    | none => rw [hc] at hclose; simp at hclose
    | some bp =>
        simp only [closeBrackets, hstack, closeBracketsGo, List.append_nil]
        rw [← hstack]

/-- Witness for C8: an unrecognized stray `>` lands in the root as a
plain word; a recognized stray `]` on an empty stack is dropped. -/
theorem C8_push_tolerates_mismatch_witness :
    ((TempBrackets.new stdBrackets).brackets.find?
        (fun bp => [bp.openChar] == (['>'])) = none
      ∧ (TempBrackets.new stdBrackets).push 0 0 1 (['>']) =
          { TempBrackets.new stdBrackets with
              root := [Word.word (['>']) 0 0 1] })
    ∧ ((TempBrackets.new stdBrackets).brackets.find?
        (fun bp => [bp.openChar] == ([']'])) = none
      ∧ ((TempBrackets.new stdBrackets).brackets.find?
        (fun bp => [bp.closeChar] == ([']'])) ).isSome = true
      ∧ (TempBrackets.new stdBrackets).push 0 0 1 ([']']) =
          TempBrackets.new stdBrackets) :=
  ⟨⟨by decide,
    by
      have h := (C8_push_tolerates_mismatch (TempBrackets.new stdBrackets)
        0 0 1 (['>']) (by decide)).1 (by decide)
      simpa using h⟩,
   ⟨by decide, by decide,
    (C8_push_tolerates_mismatch (TempBrackets.new stdBrackets)
      0 0 1 ([']']) (by decide)).2 (by decide) rfl⟩⟩

/-- `parse_helper` consumes exactly one token on success, so every
leaf parser built from it strictly shrinks the window when it
succeeds. -/
theorem parse_helper_progress {T : Type} (message : Str)
    (parse_one : Word → Option T) (v : VecWindow Word)
    (h : (parse_helper v message parse_one).res.isSome = true) :
    (parse_helper v message parse_one).words.size < v.size := by
  unfold parse_helper at h ⊢
  cases hf : v.first with
  | none => simp only [hf] at h; simp at h
  | some word =>
      cases hpo : parse_one word with
      | none => simp only [hf, hpo] at h; simp at h
      | some res =>
          simp only [hf, hpo]
          have hne : ¬ (v.is_empty = true) := by
            intro he
            rw [VecWindow.first, if_pos he] at hf
            exact Option.noConfusion hf
          unfold VecWindow.is_empty at hne
          unfold VecWindow.skip VecWindow.size
          simp only [decide_eq_true_eq] at hne
          dsimp only
          omega

/-- `i64::parse` strictly shrinks the window whenever it succeeds. -/
theorem i64Parse_progress (v : VecWindow Word)
    (h : (i64Parse v).res.isSome = true) :
    (i64Parse v).words.size < v.size :=
  parse_helper_progress (("<<integer>>").data)
    (fun word => (word.getWord).bind parseI64) v h

/-- With an element parser that strictly shrinks the window on every
success, the `Vec<T>::parse` loop needs at most `size + 1` iterations
and always ends in a successful result. -/
theorem vecLoop_ok {T : Type} (pT : ParserFn T)
    (hp : ∀ v : VecWindow Word, (pT v).res.isSome = true →
      (pT v).words.size < v.size) :
    ∀ (fuel : Nat) (w : VecWindow Word) (acc : List T)
      (errs : List ParseError), w.size < fuel →
      loopOk (vecLoop pT fuel w acc errs) = true := by
  intro fuel
  induction fuel with
  | zero => intro w acc errs hlt; omega
  | succ f ih =>
      intro w acc errs hlt
      unfold vecLoop
      by_cases he : w.is_empty = true
      · simp [he, loopOk]
      · simp only [he, Bool.false_eq_true, if_false]
        cases hres : (pT w).res with
        | some item =>
            simp only [hres]
            apply ih
            have := hp w (by rw [hres]; rfl)
            omega
        | none => simp [hres, loopOk]

/-- An element parser that succeeds without consuming makes the
`Vec<T>::parse` loop spin forever on any non-empty window: no amount
of fuel finishes it. -/
theorem vecLoop_unit_diverges :
    ∀ (fuel : Nat) (w : VecWindow Word) (acc : List Unit)
      (errs : List ParseError), w.is_empty = false →
      vecLoop unitParse fuel w acc errs = none := by
  intro fuel
  induction fuel with
  | zero => intro w acc errs _; rfl
  | succ f ih =>
      intro w acc errs hne
      unfold vecLoop
      simp only [hne, Bool.false_eq_true, if_false, unitParse]
      simpa using ih w (acc ++ [()]) errs hne

/-- C9: if every successful parse of the element parser strictly
decreases the window size, `Vec<T>::parse` terminates with a successful
result on every window (fuel `size + 1` suffices); and without that
precondition it need not terminate — the unit parser `()`, which
succeeds while consuming nothing, makes the loop run out of any amount
of fuel on any non-empty window. -/
theorem C9_vec_parse_termination {T : Type} (pT : ParserFn T)
    (w wu : VecWindow Word) (acc : List T) (errs : List ParseError)
    (fuel : Nat) (accu : List Unit) (errsu : List ParseError) :
    ((∀ v : VecWindow Word, (pT v).res.isSome = true →
        (pT v).words.size < v.size) →
      loopOk (vecLoop pT (w.size + 1) w acc errs) = true)
    ∧ (wu.is_empty = false →
      vecLoop unitParse fuel wu accu errsu = none) := by
  constructor
  · intro hp
    exact vecLoop_ok pT hp (w.size + 1) w acc errs (by omega)
  · intro hne
    exact vecLoop_unit_diverges fuel wu accu errsu hne

/-- Witness for C9: `Vec<i64>` terminates successfully on the tokens
of `1 2 3`; `Vec<()>` exhausts (for example) 5 units of fuel on the
non-empty tokens of `1`. -/
theorem C9_vec_parse_termination_witness :
    loopOk (vecLoop i64Parse ((windowOfText ("1 2 3") []).size + 1)
      (windowOfText ("1 2 3") []) [] []) = true
    ∧ vecLoop unitParse 5 (windowOfText ("1") []) [] [] = none :=
  ⟨(C9_vec_parse_termination i64Parse (windowOfText ("1 2 3") [])
      (windowOfText ("1") []) [] [] 5 [] []).1 i64Parse_progress,
   (C9_vec_parse_termination i64Parse (windowOfText ("1 2 3") [])
      (windowOfText ("1") []) [] [] 5 [] []).2 (by decide)⟩

/-- C10, evaluated at the failing input: the tokenizer turns the text
consisting of one double-quote character into a single token `"`;
`String::parse` sees a token that both starts and ends with `"` and
takes the slice `word[1..0]`, which panics — the claim (and the
engine's errors-as-data design) says `String::parse` returns a
`ParseResult` for every window. -/
theorem C10_string_parse_panics_on_lone_quote :
    split_words ("\"") [] = [Word.word (['"']) 0 0 1]
    ∧ stringParse (windowOfText ("\"") []) = none := by
  decide

end Soup
